import Mathlib

/-!
# Verification of the executive-review extraction/analysis pipeline

Shallow embedding of the Python sources under
`skills/executive-review/scripts/` (`types.py`, `constants.py`, `detect.py`,
`utils.py`, `extract.py`, `analyze.py`, `report.py`, `run.py`).

Modelling conventions:
* Python strings are Lean `String`s; where character-level reasoning is
  needed we work on `String.data` (`List Char`).
* The filesystem, the external libraries (whisper, fitz, python-pptx,
  python-docx, cv2) and the `ffprobe` subprocess are modelled as data
  carried by an abstract `PyFile` record: each field records what the
  corresponding external call would return for that file.  The Python
  functions themselves are translated faithfully on top of that data.
* Python `float` durations are modelled as `ℚ`; only their presence,
  absence and formatting structure matter to the properties proved here.
* Fallible Python code (functions that can raise) returns `Except String`.
-/

namespace ExecReview

/-! ## Python string primitives -/

/-- Whitespace class used by Python's `str.strip()` and the regex `\s`
(ASCII part; both agree on this class, which is all the development needs). -/
def isPySpace (c : Char) : Bool :=
  c == ' ' || c == '\t' || c == '\n' || c == '\r' || c == Char.ofNat 11 || c == Char.ofNat 12

/-- Left strip: drop leading whitespace (half of Python `str.strip()`). -/
def lstripChars (l : List Char) : List Char := l.dropWhile isPySpace

/-- Right strip: drop trailing whitespace (half of Python `str.strip()`). -/
def rstripChars (l : List Char) : List Char := (l.reverse.dropWhile isPySpace).reverse

/-- Python `str.strip()` on the character list. -/
def stripChars (l : List Char) : List Char := rstripChars (lstripChars l)

/-- Python `str.strip()`. -/
def pyStrip (s : String) : String := String.mk (stripChars s.data)

/-- ASCII lower-casing of one character (Python `str.lower()`; all strings
lower-cased in this code base are ASCII). -/
def pyCharLower (c : Char) : Char :=
  if 'A' ≤ c ∧ c ≤ 'Z' then Char.ofNat (c.toNat + 32) else c

/-- Python `str.lower()`. -/
def pyLower (s : String) : String := String.mk (s.data.map pyCharLower)

/-- Split a character list on a separator character, Python
`str.split(sep)` semantics (`"".split(",") == [""]`). -/
def splitChars (sep : Char) : List Char → List (List Char)
  | [] => [[]]
  | c :: rest =>
    if c = sep then
      [] :: splitChars sep rest
    else
      match splitChars sep rest with
      | [] => [[c]]
      | g :: gs => (c :: g) :: gs

/-- Python `s.split(",")`. -/
def pySplitComma (s : String) : List String :=
  (splitChars ',' s.data).map String.mk

/-- Python truthiness of an optional string (`None` and `""` are falsy). -/
def optStrTruthy : Option String → Bool
  | none => false
  | some s => s ≠ ""

/-- Python `x or y` for optional strings (`title or 'Untitled'`). -/
def pyOrStr (x : Option String) (dflt : String) : String :=
  match x with
  | some s => if s = "" then dflt else s
  | none => dflt

/-- Python truthiness of an optional number (`None` and `0` are falsy). -/
def optRatTruthy : Option ℚ → Bool
  | none => false
  | some q => q ≠ 0

/-- Python truthiness of an optional integer (`None` and `0` are falsy). -/
def optNatTruthy : Option Nat → Bool
  | none => false
  | some n => n ≠ 0

/-- Python `"\n".join(parts)`. -/
def joinLines : List String → String
  | [] => ""
  | [p] => p
  | p :: q :: rest => p ++ "\n" ++ joinLines (q :: rest)

/-- Number of occurrences of a (non-empty) pattern in a character list:
the number of positions at which the pattern occurs as a prefix of the
corresponding tail.  Used to state claims about marker occurrences. -/
def countSub (p : List Char) : List Char → Nat
  | [] => 0
  | c :: rest => (if p.isPrefixOf (c :: rest) then 1 else 0) + countSub p rest

/-- Pattern `pat` occurs somewhere inside `s` (substring containment). -/
def strContains (pat s : String) : Prop := pat.data <:+: s.data

/-- String `s` starts with `pat`. -/
def strStartsWith (pat s : String) : Prop := pat.data <+: s.data

instance (pat s : String) : Decidable (strContains pat s) := by
  unfold strContains; infer_instance

instance (pat s : String) : Decidable (strStartsWith pat s) := by
  unfold strStartsWith; infer_instance

/-! ## utils.py : pure text utilities -/

/-- `utils.truncate_text`: truncate `text` to at most `maxLength`
characters, replacing the cut tail by `suffix`.  (Python slices with a
non-negative index; every call site in the sources and claims has
`maxLength ≥ suffix.length`, where the `Nat` subtraction below coincides
with Python's arithmetic.) -/
def truncate_text (text : List Char) (maxLength : Nat := 1000)
    (suffix : List Char := "...".data) : List Char :=
  if text.length ≤ maxLength then text
  else text.take (maxLength - suffix.length) ++ suffix

/-- Helper for `collapseWs`: the flag records whether we are inside a
whitespace run whose single replacement space was already emitted. -/
def collapseAux : Bool → List Char → List Char
  | _, [] => []
  | inRun, c :: rest =>
    if isPySpace c then
      if inRun then collapseAux true rest
      else ' ' :: collapseAux true rest
    else c :: collapseAux false rest

/-- `re.sub(r"\s+", " ", text)`: replace every maximal whitespace run by
a single space. -/
def collapseWs (l : List Char) : List Char := collapseAux false l

/-- `utils.clean_text`: whitespace-collapse then strip. -/
def clean_text (s : String) : String := String.mk (stripChars (collapseWs s.data))

/-! ## types.py : enumerations and data model -/

/-- `types.ContentType`. -/
inductive ContentType
  | video
  | audio
  | document
  | presentation
deriving DecidableEq, Repr

/-- `types.UserType`. -/
inductive UserType
  | sales_engineer
  | product_manager
  | developer
  | technical_writer
  | marketing
  | solutions_architect
deriving DecidableEq, Repr

/-- `types.PersonaType` (declaration order matters: `list(PersonaType)`
enumerates in this order). -/
inductive PersonaType
  | ceo
  | cfo
  | cto
  | vp_product
  | ciso
  | vp_operations
deriving DecidableEq, Repr

/-- `types.QuestionCategory`. -/
inductive QuestionCategory
  | strategic
  | technical
  | financial
  | operational
  | security
  | timeline
  | integration
  | risk
deriving DecidableEq, Repr

/-- `types.Severity`. -/
inductive Severity
  | high
  | medium
  | low
deriving DecidableEq, Repr

/-- `types.TimestampedSegment` (`start`/`end` are float seconds, modelled
as `ℚ`; the `end` field is renamed `stop` because `end` is a Lean
keyword). -/
structure TimestampedSegment where
  start : ℚ
  stop : ℚ
  text : String
deriving DecidableEq, Repr

/-- `types.SlideContent` (the optional `image_path` is a path string). -/
structure SlideContent where
  slide_number : Nat
  title : Option String := none
  text : String
  notes : Option String := none
  image_path : Option String := none
deriving DecidableEq, Repr

/-- `types.ExtractionMetadata`.  The `extracted_at` wall-clock timestamp
is not modelled (no claim mentions it); `file_path` is kept as the path
string. -/
structure ExtractionMetadata where
  file_path : String
  file_name : String
  file_size_bytes : Nat
  content_type : ContentType
  duration_seconds : Option ℚ := none
  page_count : Option Nat := none
  slide_count : Option Nat := none
  language : Option String := none
deriving DecidableEq, Repr

/-- `types.ExtractionResult`. -/
structure ExtractionResult where
  metadata : ExtractionMetadata
  text : String
  segments : Option (List TimestampedSegment) := none
  slides : Option (List SlideContent) := none
  image_paths : List String := []
deriving DecidableEq, Repr

/-- `types.ExecutivePersona`. -/
structure ExecutivePersona where
  type : PersonaType
  name : String
  title : String
  focus_areas : List String
  question_style : String
  key_concerns : List String
  perspective : String
deriving DecidableEq, Repr

/-- `types.Question`. -/
structure Question where
  text : String
  category : QuestionCategory
  reasoning : String
  suggested_response : String
deriving DecidableEq, Repr

/-- `types.Concern`. -/
structure Concern where
  title : String
  description : String
  severity : Severity
  why_it_matters : String
deriving DecidableEq, Repr

/-- `types.Risk`. -/
structure Risk where
  title : String
  impact : String
  mitigation : String
deriving DecidableEq, Repr

/-- `types.Recommendation`. -/
structure Recommendation where
  text : String
  priority : Severity
deriving DecidableEq, Repr

/-- `types.AnalysisResult`. -/
structure AnalysisResult where
  persona : ExecutivePersona
  questions : List Question := []
  concerns : List Concern := []
  followups : List String := []
  risks : List Risk := []
  recommendations : List Recommendation := []
deriving DecidableEq, Repr

/-! ## constants.py : extension sets

Python `set`s of strings; modelled as lists (the four sets are pairwise
disjoint — proved below — so list concatenation models the set union
faithfully for membership). -/

def SUPPORTED_VIDEO_EXTENSIONS : List String := [".mp4", ".webm", ".mov", ".avi", ".mkv"]

def SUPPORTED_AUDIO_EXTENSIONS : List String := [".mp3", ".wav", ".m4a", ".flac", ".ogg"]

def SUPPORTED_DOCUMENT_EXTENSIONS : List String := [".pdf", ".docx", ".md", ".txt"]

def SUPPORTED_PRESENTATION_EXTENSIONS : List String := [".pptx"]

def ALL_SUPPORTED_EXTENSIONS : List String :=
  SUPPORTED_VIDEO_EXTENSIONS ++ SUPPORTED_AUDIO_EXTENSIONS ++
    SUPPORTED_DOCUMENT_EXTENSIONS ++ SUPPORTED_PRESENTATION_EXTENSIONS

/-- `sorted(ALL_SUPPORTED_EXTENSIONS)` written out (Python sorts strings
lexicographically by code point); `sorted_supported_is_perm` below checks
it enumerates exactly the supported extensions. -/
def sorted_supported_extensions : List String :=
  [".avi", ".docx", ".flac", ".m4a", ".md", ".mkv", ".mov", ".mp3",
   ".mp4", ".ogg", ".pdf", ".pptx", ".txt", ".wav", ".webm"]

/-! ## The abstract file / environment model

`PyFile` packages everything the Python code can observe about one input
file: filesystem facts (used by `detect.py`) and the data the external
libraries and subprocesses would hand back for this file (used by
`extract.py` / `utils.py`).  Each extractor below is a faithful
translation of the corresponding Python function over this record. -/

/-- Outcome of `open(file_path, "rb").read(1)` in `detect.validate_file`. -/
inductive ReadOutcome
  | ok
  | permissionError
  | ioError (msg : String)
deriving DecidableEq, Repr

/-- Outcome of `json.loads(result.stdout)` and the subsequent
`float(data["format"]["duration"])` in `utils.get_video_duration`. -/
inductive ProbeJson
  | malformed
  | missingFormat
  | missingDuration
  | notAFloat (raw : String)
  | duration (value : ℚ)
deriving DecidableEq, Repr

/-- Outcome of the `subprocess.run(["ffprobe", ...])` invocation.
`fileNotFound` (the `ffprobe` binary being absent) raises
`FileNotFoundError`, which the `except` clause in `get_video_duration`
does **not** catch; `subprocessError` covers `subprocess.SubprocessError`
and `timeoutExpired` its subclass `subprocess.TimeoutExpired`. -/
inductive ProbeEnv
  | fileNotFound
  | subprocessError
  | timeoutExpired
  | completed (returncode : Int) (stdout : ProbeJson)
deriving DecidableEq, Repr

/-- One PPTX slide as seen through python-pptx. -/
structure PptxSlide where
  /-- Text of `slide.shapes.title` when that placeholder exists. -/
  title : Option String := none
  /-- One entry per shape: `some t` models a shape with a `text`
  attribute equal to `t`, `none` a shape without one. -/
  shapeTexts : List (Option String) := []
  /-- Text of the notes text frame when `slide.has_notes_slide` and the
  frame is truthy. -/
  notesText : Option String := none
deriving DecidableEq, Repr

/-- Abstract model of one input file plus the behaviour of every
external collaborator on it. -/
structure PyFile where
  /-- `str(file_path)`. -/
  pathStr : String := ""
  /-- `file_path.name`. -/
  name : String := ""
  /-- `file_path.suffix` (extension with dot, original case). -/
  suffix : String := ""
  /-- `file_path.exists()` (`exists` is a Lean keyword, hence the name). -/
  fsExists : Bool := true
  /-- `file_path.is_file()`. -/
  isFile : Bool := true
  /-- Result of reading the first byte. -/
  readFirstByte : ReadOutcome := .ok
  /-- `file_path.stat().st_size`. -/
  sizeBytes : Nat := 1
  /-- Per-page `page.get_text()` from PyMuPDF. -/
  pdfPageTexts : List String := []
  /-- Image paths PyMuPDF successfully saves when an output directory is
  supplied (per-image failures are swallowed by the source). -/
  pdfSavedImages : List String := []
  /-- Slides as seen through python-pptx. -/
  pptxSlides : List PptxSlide := []
  /-- Non-empty paragraph texts from python-docx. -/
  docxParagraphs : List String := []
  /-- Raw file contents (markdown / plain-text reads). -/
  rawText : String := ""
  /-- Whisper `result["text"]`. -/
  transcriptText : String := ""
  /-- Whisper `result["segments"]` (already stripped per segment). -/
  transcriptSegments : List TimestampedSegment := []
  /-- Whisper `result.get("language")`. -/
  transcriptLanguage : Option String := none
  /-- Behaviour of the `ffprobe` duration probe on this file. -/
  probe : ProbeEnv := .subprocessError
  /-- Outcome of cv2 frame sampling: `error` when the video cannot be
  opened (the source raises), otherwise the saved frame paths. -/
  frameExtraction : Except String (List String) := .ok []
deriving Repr

/-! ## utils.py / detect.py : detection and validation -/

/-- `utils.get_file_extension`: `path.suffix.lower()`. -/
def get_file_extension (f : PyFile) : String := pyLower f.suffix

/-- `detect.detect_content_type`. -/
def detect_content_type (f : PyFile) : Option ContentType :=
  let ext := get_file_extension f
  if ext ∈ SUPPORTED_VIDEO_EXTENSIONS then some .video
  else if ext ∈ SUPPORTED_AUDIO_EXTENSIONS then some .audio
  else if ext ∈ SUPPORTED_DOCUMENT_EXTENSIONS then some .document
  else if ext ∈ SUPPORTED_PRESENTATION_EXTENSIONS then some .presentation
  else none

/-- `detect.validate_file`. -/
def validate_file (f : PyFile) : Bool × String :=
  if ¬ f.fsExists then (false, "File not found: " ++ f.pathStr)
  else if ¬ f.isFile then (false, "Path is not a file: " ++ f.pathStr)
  else
    match f.readFirstByte with
    | .permissionError => (false, "Permission denied: " ++ f.pathStr)
    | .ioError e => (false, "Cannot read file: " ++ f.pathStr ++ " - " ++ e)
    | .ok =>
      let ext := get_file_extension f
      if ext ∉ ALL_SUPPORTED_EXTENSIONS then
        (false, "Unsupported file type: " ++ ext ++ ". Supported types: " ++
          String.intercalate ", " sorted_supported_extensions)
      else if f.sizeBytes = 0 then (false, "File is empty: " ++ f.pathStr)
      else (true, "File is valid")

/-! ## utils.py : duration probe and formatting -/

/-- `utils.get_video_duration`.  Returns `.error` exactly when the Python
function would propagate an exception (only `FileNotFoundError` escapes
its `except (SubprocessError, JSONDecodeError, KeyError, ValueError)`
clause); every caught failure yields `.ok none`. -/
def get_video_duration (env : ProbeEnv) : Except String (Option ℚ) :=
  match env with
  | .fileNotFound => .error "FileNotFoundError"
  | .subprocessError => .ok none
  | .timeoutExpired => .ok none
  | .completed rc stdout =>
    if rc = 0 then
      match stdout with
      | .malformed => .ok none
      | .missingFormat => .ok none
      | .missingDuration => .ok none
      | .notAFloat _ => .ok none
      | .duration v => .ok (some v)
    else .ok none

/-- `utils.get_audio_duration` delegates to `get_video_duration`. -/
def get_audio_duration (env : ProbeEnv) : Except String (Option ℚ) :=
  get_video_duration env

/-- Floored modulus on rationals, matching Python `%` on floats. -/
def qmod (a b : ℚ) : ℚ := a - b * ⌊a / b⌋

/-- `utils.format_duration`. -/
def format_duration (seconds : ℚ) : String :=
  let hours : ℤ := ⌊seconds / 3600⌋
  let minutes : ℤ := ⌊qmod seconds 3600 / 60⌋
  let secs : ℤ := ⌊qmod seconds 60⌋
  if 0 < hours then toString hours ++ "h " ++ toString minutes ++ "m " ++ toString secs ++ "s"
  else if 0 < minutes then toString minutes ++ "m " ++ toString secs ++ "s"
  else toString secs ++ "s"

/-- Python `f"{x:.1f}"` for a non-negative value: one decimal digit.
(Binary-float representation and round-half-to-even ties are not
modelled; no claim inspects rendered numbers.) -/
def pyFormat1f (q : ℚ) : String :=
  let n : ℤ := round (q * 10)
  toString (n / 10) ++ "." ++ toString (n % 10)

/-- Loop body of `utils.format_file_size`. -/
def format_file_size_aux : ℚ → List String → String
  | b, [] => pyFormat1f b ++ " TB"
  | b, u :: us => if b < 1024 then pyFormat1f b ++ " " ++ u else format_file_size_aux (b / 1024) us

/-- `utils.format_file_size`. -/
def format_file_size (bytes : Nat) : String :=
  format_file_size_aux (bytes : ℚ) ["B", "KB", "MB", "GB"]

/-- `utils.get_content_type_display`. -/
def get_content_type_display : ContentType → String
  | .video => "Video"
  | .audio => "Audio"
  | .document => "Document"
  | .presentation => "Presentation"

/-! ## extract.py : extractors

Each extractor mirrors the corresponding Python function; external
library results are read off the `PyFile` record.  An output directory is
modelled as `Option Unit` (only its presence is ever branched on). -/

/-- `extract.extract_transcript` (whisper assumed to succeed; its output
is the `transcript*` data of the file).  The Python expression
`get_video_duration(p) or get_audio_duration(p)` calls the same probe
twice: an uncaught exception propagates, a falsy first result (`None` or
`0.0`) re-runs the identical probe, so the value is that of a single
probe in every case. -/
def extract_transcript (f : PyFile) : Except String ExtractionResult :=
  match get_video_duration f.probe with
  | .error e => .error e
  | .ok duration =>
    .ok
      { metadata :=
          { file_path := f.pathStr
            file_name := f.name
            file_size_bytes := f.sizeBytes
            content_type := (detect_content_type f).getD .audio
            duration_seconds := duration
            language := f.transcriptLanguage }
        text := pyStrip f.transcriptText
        segments := some f.transcriptSegments }

/-- The `for page_num, page in enumerate(doc)` loop of `extract_pdf`:
a `--- Page N ---` separator followed by the page text, per page. -/
def pdfParts (n : Nat) : List String → List String
  | [] => []
  | t :: rest => ("--- Page " ++ toString n ++ " ---") :: t :: pdfParts (n + 1) rest

/-- `extract.extract_pdf`: page texts joined with `--- Page N ---`
separators, cleaned; images only when an output directory is given. -/
def extract_pdf (f : PyFile) (output_dir : Option Unit) : ExtractionResult :=
  let text_parts := pdfParts 1 f.pdfPageTexts
  let image_paths := if output_dir.isSome then f.pdfSavedImages else []
  { metadata :=
      { file_path := f.pathStr
        file_name := f.name
        file_size_bytes := f.sizeBytes
        content_type := .document
        page_count := some f.pdfPageTexts.length }
    text := clean_text (joinLines text_parts)
    image_paths := image_paths }

/-- `extract.extract_docx`. -/
def extract_docx (f : PyFile) : ExtractionResult :=
  let paragraphs := f.docxParagraphs.filter fun p => pyStrip p ≠ ""
  { metadata :=
      { file_path := f.pathStr
        file_name := f.name
        file_size_bytes := f.sizeBytes
        content_type := .document }
    text := clean_text (String.intercalate "\n\n" paragraphs) }

/-- `extract.extract_markdown`: raw read, no transformation. -/
def extract_markdown (f : PyFile) : ExtractionResult :=
  { metadata :=
      { file_path := f.pathStr
        file_name := f.name
        file_size_bytes := f.sizeBytes
        content_type := .document }
    text := f.rawText }

/-- `extract.extract_text_file`: raw read, no transformation. -/
def extract_text_file (f : PyFile) : ExtractionResult :=
  { metadata :=
      { file_path := f.pathStr
        file_name := f.name
        file_size_bytes := f.sizeBytes
        content_type := .document }
    text := f.rawText }

/-- `extract.extract_document` dispatch. -/
def extract_document (f : PyFile) (output_dir : Option Unit) :
    Except String ExtractionResult :=
  let ext := get_file_extension f
  if ext = ".pdf" then .ok (extract_pdf f output_dir)
  else if ext = ".docx" then .ok (extract_docx f)
  else if ext = ".md" then .ok (extract_markdown f)
  else if ext = ".txt" then .ok (extract_text_file f)
  else .error ("Unsupported document format: " ++ ext)

/-- The slide header line `f"--- Slide {n}: {title or 'Untitled'} ---"`. -/
def slideHeader (n : Nat) (title : Option String) : String :=
  "--- Slide " ++ toString n ++ ": " ++ pyOrStr title "Untitled" ++ " ---"

/-- The `--- Slide k:` marker of claim C3. -/
def slideMarker (k : Nat) : String := "--- Slide " ++ toString k ++ ":"

/-- Body text of one slide: texts of the shapes that have a `text`
attribute with non-blank content, joined by newlines. -/
def slideBodyText (s : PptxSlide) : String :=
  joinLines (s.shapeTexts.filterMap fun t? =>
    match t? with
    | some t => if pyStrip t ≠ "" then some t else none
    | none => none)

/-- Speaker notes of one slide, per the source's truthiness checks. -/
def slideNotes (s : PptxSlide) : Option String :=
  match s.notesText with
  | some t => if pyStrip t ≠ "" then some (pyStrip t) else none
  | none => none

/-- The `SlideContent` record built for one slide. -/
def slideContentOf (n : Nat) (s : PptxSlide) : SlideContent :=
  { slide_number := n
    title := s.title
    text := clean_text (slideBodyText s)
    notes := slideNotes s }

/-- The `text_parts` entries appended for one slide. -/
def slidePartsOf (n : Nat) (s : PptxSlide) : List String :=
  [slideHeader n s.title, slideBodyText s] ++
    (match slideNotes s with
     | some notes => ["[Speaker Notes: " ++ notes ++ "]"]
     | none => []) ++ [""]

/-- The single `for slide_num, slide in enumerate(prs.slides, start=1)`
loop of `extract_pptx`, which grows `slides_content` and `text_parts`
together. -/
def pptxLoop (n : Nat) : List PptxSlide → List SlideContent × List String
  | [] => ([], [])
  | s :: rest =>
    let (cs, ps) := pptxLoop (n + 1) rest
    (slideContentOf n s :: cs, slidePartsOf n s ++ ps)

/-- `extract.extract_pptx`. -/
def extract_pptx (f : PyFile) (_output_dir : Option Unit) : ExtractionResult :=
  let (slides_content, text_parts) := pptxLoop 1 f.pptxSlides
  { metadata :=
      { file_path := f.pathStr
        file_name := f.name
        file_size_bytes := f.sizeBytes
        content_type := .presentation
        slide_count := some slides_content.length }
    text := joinLines text_parts
    slides := some slides_content
    image_paths := [] }

/-- `extract.extract_presentation` dispatch: PPTX, or the PDF *document*
path reused verbatim; anything else raises. -/
def extract_presentation (f : PyFile) (output_dir : Option Unit) :
    Except String ExtractionResult :=
  let ext := get_file_extension f
  if ext = ".pptx" then .ok (extract_pptx f output_dir)
  else if ext = ".pdf" then .ok (extract_pdf f output_dir)
  else .error ("Unsupported presentation format: " ++ ext)

/-- `extract.extract_content`, the main dispatcher.  `whisper_model` and
`frame_interval` only configure external collaborators and do not affect
the modelled outputs. -/
def extract_content (f : PyFile) (content_type : ContentType)
    (output_dir : Option Unit) (enable_frames : Bool)
    (_whisper_model : String := "base") (_frame_interval : Nat := 15) :
    Except String ExtractionResult :=
  match content_type with
  | .video =>
    match extract_transcript f with
    | .error e => .error e
    | .ok result =>
      if enable_frames ∧ output_dir.isSome then
        match f.frameExtraction with
        | .error e => .error e
        | .ok frame_paths => .ok { result with image_paths := frame_paths }
      else .ok result
  | .audio => extract_transcript f
  | .document => extract_document f output_dir
  | .presentation => extract_presentation f output_dir

/-! ## analyze.py : cross-persona consolidation -/

/-- The nested `for analysis in analyses: for question in analysis.questions:`
loop of `get_consolidated_questions`, which threads the `seen_texts` set
and the output list through one element at a time — i.e. a single pass
over the concatenation of the question lists. -/
def consolidateQuestionsAux : List Question → List String → List Question
  | [], _ => []
  | q :: rest, seen =>
    if q.text ∈ seen then consolidateQuestionsAux rest seen
    else q :: consolidateQuestionsAux rest (q.text :: seen)

/-- `analyze.get_consolidated_questions`. -/
def get_consolidated_questions (analyses : List AnalysisResult) : List Question :=
  consolidateQuestionsAux (analyses.flatMap AnalysisResult.questions) []

/-- The sort key `severity_order.get(c.severity, 3)` (the default `3` for
an unknown severity is unreachable for the closed `Severity` enum). -/
def severityKey : Severity → Nat
  | .high => 0
  | .medium => 1
  | .low => 2

/-- Comparison used by the stable sort in `get_consolidated_concerns`. -/
def concernLe (c d : Concern) : Prop := severityKey c.severity ≤ severityKey d.severity

instance : DecidableRel concernLe := fun c d =>
  inferInstanceAs (Decidable (severityKey c.severity ≤ severityKey d.severity))

instance : IsTotal Concern concernLe :=
  ⟨fun c d => Nat.le_total (severityKey c.severity) (severityKey d.severity)⟩

instance : IsTrans Concern concernLe :=
  ⟨fun _ _ _ h h' => Nat.le_trans h h'⟩

/-- `analyze.get_consolidated_concerns`: concatenate, then sort stably by
severity key (Python's `list.sort` is a stable sort; `List.insertionSort`
is the stable sort used to model it — the stability characterisation is
proved below, so any stable sort gives the same function). -/
def get_consolidated_concerns (analyses : List AnalysisResult) : List Concern :=
  List.insertionSort concernLe (analyses.flatMap AnalysisResult.concerns)

/-! ## report.py : header generation -/

/-- `report.generate_header`, as its list of lines (the function returns
`"\n".join(lines)`; `now_str` stands for the formatted
`datetime.now()`). -/
def generate_header_lines (content : ExtractionResult)
    (enable_frame_analysis : Bool) (now_str : String) : List String :=
  let m := content.metadata
  ["# Executive Review: " ++ m.file_name,
   "",
   "**Reviewed**: " ++ now_str,
   "**Content Type**: " ++ get_content_type_display m.content_type,
   "**File Size**: " ++ format_file_size m.file_size_bytes] ++
  (if optRatTruthy m.duration_seconds then
    ["**Duration**: " ++ format_duration (m.duration_seconds.getD 0)] else []) ++
  (if optNatTruthy m.page_count then
    ["**Pages**: " ++ toString (m.page_count.getD 0)] else []) ++
  (if optNatTruthy m.slide_count then
    ["**Slides**: " ++ toString (m.slide_count.getD 0)] else []) ++
  (if optStrTruthy m.language then
    ["**Language**: " ++ (m.language.getD "").toUpper] else []) ++
  (if m.content_type = .video then
    ["**Frame Analysis**: " ++ (if enable_frame_analysis then "Enabled" else "Disabled")]
   else []) ++
  ["", "---", ""]

/-- `report.generate_header`. -/
def generate_header (content : ExtractionResult)
    (enable_frame_analysis : Bool) (now_str : String) : String :=
  joinLines (generate_header_lines content enable_frame_analysis now_str)

/-! ## run.py : persona parsing and selection -/

/-- The `persona_map` dictionary of `run.parse_personas`. -/
def persona_map : List (String × PersonaType) :=
  [("ceo", .ceo), ("cfo", .cfo), ("cto", .cto),
   ("vp_product", .vp_product), ("vpproduct", .vp_product),
   ("vp-product", .vp_product), ("product", .vp_product),
   ("ciso", .ciso), ("security", .ciso),
   ("vp_operations", .vp_operations), ("vpoperations", .vp_operations),
   ("vp-operations", .vp_operations), ("operations", .vp_operations),
   ("ops", .vp_operations)]

/-- `persona_map.get(p)`. -/
def lookupPersona (p : String) : Option PersonaType :=
  persona_map.lookup p

/-- The token loop of `run.parse_personas`: collects recognised personas
in order and one "Unknown persona" warning per unrecognised token. -/
def parsePersonasTokens : List String → List PersonaType × List String
  | [] => ([], [])
  | t :: ts =>
    let p := pyStrip t
    let (ps, ws) := parsePersonasTokens ts
    match lookupPersona p with
    | some pt => (pt :: ps, ws)
    | none => (ps, ("Unknown persona: " ++ p) :: ws)

/-- `run.parse_personas`: returns the selected personas and the warning
messages printed (in order). -/
def parse_personas (persona_str : String) : List PersonaType × List String :=
  parsePersonasTokens (pySplitComma (pyLower persona_str))

/-- The `user_type_map` dictionary of `run.parse_user_type`. -/
def user_type_map : List (String × UserType) :=
  [("sales", .sales_engineer), ("sales_engineer", .sales_engineer),
   ("product", .product_manager), ("product_manager", .product_manager),
   ("pm", .product_manager),
   ("developer", .developer), ("dev", .developer),
   ("writer", .technical_writer), ("technical_writer", .technical_writer),
   ("marketing", .marketing),
   ("solutions", .solutions_architect), ("solutions_architect", .solutions_architect),
   ("sa", .solutions_architect)]

/-- `run.parse_user_type`. -/
def parse_user_type (user_type_str : String) : Option UserType :=
  user_type_map.lookup (pyStrip (pyLower user_type_str))

/-- `constants.USER_TYPE_PERSONA_DEFAULTS` (total: every `UserType` is a
key of the Python dict, so `dict.get(ut, [])` never takes its default). -/
def USER_TYPE_PERSONA_DEFAULTS : UserType → List PersonaType
  | .sales_engineer => [.cto, .ciso]
  | .product_manager => [.ceo, .vp_product]
  | .developer => [.cto, .vp_operations]
  | .technical_writer => [.ceo, .cfo]
  | .marketing => [.ceo, .cfo]
  | .solutions_architect => [.cto, .ciso, .vp_operations]

/-- `list(PersonaType)`: all personas in declaration order. -/
def allPersonaTypes : List PersonaType :=
  [.ceo, .cfo, .cto, .vp_product, .ciso, .vp_operations]

/-- The persona-selection logic of `run.main` (lines 345–370): the three
`if / elif` branches, then the `if not personas` fallback to
`[CEO, CTO]`.  Returns the selected personas together with the
warning-level messages printed (argparse makes `--personas` and
`--all-personas` mutually exclusive; `if args.personas:` /
`if args.user_type:` are Python truthiness tests, false for an absent
*and* for an empty string). -/
def select_personas (all_personas : Bool) (personas_arg : Option String)
    (user_type_arg : Option String) : List PersonaType × List String :=
  let (personas, warnings) :=
    if all_personas then (allPersonaTypes, ([] : List String))
    else if optStrTruthy personas_arg then parse_personas (personas_arg.getD "")
    else if optStrTruthy user_type_arg then
      match parse_user_type (user_type_arg.getD "") with
      | some ut => (USER_TYPE_PERSONA_DEFAULTS ut, [])
      | none => ([], ["Unknown user type: " ++ user_type_arg.getD ""])
    else ([], [])
  if personas.isEmpty then ([.ceo, .cto], warnings) else (personas, warnings)

/-! ## Reference definitions used to state the claims -/

/-- String-level image of `consolidateQuestionsAux` (same seen-set
threading, on the texts alone); proof scaffolding for C7. -/
def dedupStrings : List String → List String → List String
  | [], _ => []
  | x :: xs, seen =>
    if x ∈ seen then dedupStrings xs seen
    else x :: dedupStrings xs (x :: seen)

/-- Reference definition, following the spec's words for `dedupe`: keep
the first occurrence of every text, preserving first-occurrence order.
Compared against `get_consolidated_questions` in claim C7. -/
def firstOccurrenceTexts : List String → List String
  | [] => []
  | x :: xs => x :: firstOccurrenceTexts (xs.filter (fun y => y != x))
termination_by l => l.length
decreasing_by
  simp only [List.length_cons]
  exact Nat.lt_succ_of_le (List.length_filter_le _ _)

/-- A minimal persona record, used only to build concrete
`AnalysisResult` values in example/witness statements. -/
def examplePersona : ExecutivePersona :=
  { type := .ceo
    name := "Chief Executive Officer"
    title := "CEO"
    focus_areas := ["Strategic vision"]
    question_style := ""
    key_concerns := []
    perspective := "" }

/-- A concern with the given title and severity (other fields blank). -/
def exampleConcern (title : String) (severity : Severity) : Concern :=
  { title := title, description := "", severity := severity, why_it_matters := "" }

/-- The concrete input of claim C2: concern severities
[LOW, HIGH, MEDIUM, HIGH], distinctly titled. -/
def exampleSeverityAnalysis : AnalysisResult :=
  { persona := examplePersona
    concerns := [exampleConcern "c1" .low, exampleConcern "c2" .high,
                 exampleConcern "c3" .medium, exampleConcern "c4" .high] }

/-- A question with the given text (other fields fixed). -/
def exampleQuestion (text : String) : Question :=
  { text := text, category := .strategic, reasoning := "", suggested_response := "" }

/-- A three-slide PPTX deck (concrete instance for C3's witness). -/
def exampleDeck : PyFile :=
  { pathStr := "deck.pptx", name := "deck.pptx", suffix := ".pptx",
    pptxSlides := [{ title := some "Intro" }, { title := some "Approach" },
                   { title := some "Pricing" }] }

/-- A one-slide PPTX deck whose slide body itself contains a
`--- Slide 1:` marker (concrete instance for C3's counterexample). -/
def collidingDeck : PyFile :=
  { pathStr := "deck.pptx", name := "deck.pptx", suffix := ".pptx",
    pptxSlides := [{ shapeTexts := [some "--- Slide 1: x ---"] }] }

/-- A PDF file routed through the presentation branch (concrete instance
for C1's counterexample). -/
def pdfAsPresentationFile : PyFile :=
  { pathStr := "slides.pdf", name := "slides.pdf", suffix := ".pdf",
    pdfPageTexts := ["hello"] }

/-- A plain-text file (concrete instance for C1's witness). -/
def exampleTxtFile : PyFile :=
  { pathStr := "notes.txt", name := "notes.txt", suffix := ".txt", rawText := "hi" }

/-! # Theorems -/

/-! ## C8 : truncate_text -/

/-- C8: `truncate_text(s, 10)` returns a 10-character result ending in
`...` when `s` is longer than 10 characters, returns `s` unchanged when
`s` has at most 10 characters, and re-truncating the result at the same
or any larger max length leaves it unchanged. -/
theorem truncate_text_ten_spec (s : List Char) :
    (10 < s.length →
      (truncate_text s 10).length = 10 ∧ "...".data <:+ truncate_text s 10) ∧
    (s.length ≤ 10 → truncate_text s 10 = s) ∧
    (∀ m, 10 ≤ m → truncate_text (truncate_text s 10) m = truncate_text s 10) := by
  have hsuf : ("...".data).length = 3 := rfl
  refine ⟨?_, ?_, ?_⟩
  · intro h
    have h' : ¬ s.length ≤ 10 := by omega
    constructor
    · simp only [truncate_text, hsuf, if_neg h', List.length_append, List.length_take]
      omega
    · simp only [truncate_text, if_neg h']
      exact List.suffix_append _ _
  · intro h
    simp [truncate_text, h]
  · intro m hm
    by_cases h : s.length ≤ 10
    · have hm' : s.length ≤ m := le_trans h hm
      simp [truncate_text, h, hm']
    · have hlen : (truncate_text s 10).length = 10 := by
        simp only [truncate_text, hsuf, if_neg h, List.length_append, List.length_take]
        omega
      have hle : (truncate_text s 10).length ≤ m := by omega
      generalize truncate_text s 10 = t at hle ⊢
      simp [truncate_text, hle]

/-- C8 witness: the theorem instantiated at "abcdefghijklm" (13 chars)
and "ab" (2 chars). -/
theorem truncate_text_ten_spec_witness :
    (truncate_text "abcdefghijklm".data 10).length = 10 ∧
    "...".data <:+ truncate_text "abcdefghijklm".data 10 ∧
    truncate_text "ab".data 10 = "ab".data ∧
    truncate_text (truncate_text "abcdefghijklm".data 10) 12 =
      truncate_text "abcdefghijklm".data 10 :=
  ⟨((truncate_text_ten_spec "abcdefghijklm".data).1 (by decide)).1,
   ((truncate_text_ten_spec "abcdefghijklm".data).1 (by decide)).2,
   (truncate_text_ten_spec "ab".data).2.1 (by decide),
   (truncate_text_ten_spec "abcdefghijklm".data).2.2 12 (by decide)⟩

/-! ## C9 : detect_content_type -/

/-- C9: `detect_content_type` maps every supported extension,
case-insensitively, to its category; the four extension sets are
pairwise disjoint; and every extension outside their union yields
`none`. -/
theorem detect_content_type_spec :
    (∀ f : PyFile,
      (get_file_extension f ∈ SUPPORTED_VIDEO_EXTENSIONS →
        detect_content_type f = some .video) ∧
      (get_file_extension f ∈ SUPPORTED_AUDIO_EXTENSIONS →
        detect_content_type f = some .audio) ∧
      (get_file_extension f ∈ SUPPORTED_DOCUMENT_EXTENSIONS →
        detect_content_type f = some .document) ∧
      (get_file_extension f ∈ SUPPORTED_PRESENTATION_EXTENSIONS →
        detect_content_type f = some .presentation) ∧
      (get_file_extension f ∉ ALL_SUPPORTED_EXTENSIONS →
        detect_content_type f = none)) ∧
    ((∀ e ∈ SUPPORTED_VIDEO_EXTENSIONS,
        e ∉ SUPPORTED_AUDIO_EXTENSIONS ∧ e ∉ SUPPORTED_DOCUMENT_EXTENSIONS ∧
        e ∉ SUPPORTED_PRESENTATION_EXTENSIONS) ∧
     (∀ e ∈ SUPPORTED_AUDIO_EXTENSIONS,
        e ∉ SUPPORTED_DOCUMENT_EXTENSIONS ∧ e ∉ SUPPORTED_PRESENTATION_EXTENSIONS) ∧
     (∀ e ∈ SUPPORTED_DOCUMENT_EXTENSIONS, e ∉ SUPPORTED_PRESENTATION_EXTENSIONS)) := by
  constructor
  · intro f
    have hun : detect_content_type f =
        (if get_file_extension f ∈ SUPPORTED_VIDEO_EXTENSIONS then some ContentType.video
         else if get_file_extension f ∈ SUPPORTED_AUDIO_EXTENSIONS then some ContentType.audio
         else if get_file_extension f ∈ SUPPORTED_DOCUMENT_EXTENSIONS then some ContentType.document
         else if get_file_extension f ∈ SUPPORTED_PRESENTATION_EXTENSIONS then some ContentType.presentation
         else none) := rfl
    refine ⟨?_, ?_, ?_, ?_, ?_⟩
    · intro h
      rw [hun, if_pos h]
    · intro h
      simp only [SUPPORTED_AUDIO_EXTENSIONS, List.mem_cons, List.not_mem_nil, or_false] at h
      rcases h with h | h | h | h | h <;> rw [hun, h] <;> decide
    · intro h
      simp only [SUPPORTED_DOCUMENT_EXTENSIONS, List.mem_cons, List.not_mem_nil, or_false] at h
      rcases h with h | h | h | h <;> rw [hun, h] <;> decide
    · intro h
      simp only [SUPPORTED_PRESENTATION_EXTENSIONS, List.mem_cons, List.not_mem_nil, or_false] at h
      rw [hun, h]
      decide
    · intro h
      simp only [ALL_SUPPORTED_EXTENSIONS, List.append_assoc, List.mem_append, not_or] at h
      obtain ⟨h1, h2, h3, h4⟩ := h
      rw [hun, if_neg h1, if_neg h2, if_neg h3, if_neg h4]
  · exact ⟨by decide, by decide, by decide⟩

/-- C9 witness: the theorem instantiated at an upper-case `.MP4` file,
a `.WaV` file and an unsupported `.xyz` file. -/
theorem detect_content_type_spec_witness :
    detect_content_type { suffix := ".MP4" } = some .video ∧
    detect_content_type { suffix := ".WaV" } = some .audio ∧
    detect_content_type { suffix := ".xyz" } = none :=
  ⟨((detect_content_type_spec.1 { suffix := ".MP4" }).1 (by decide)),
   ((detect_content_type_spec.1 { suffix := ".WaV" }).2.1 (by decide)),
   ((detect_content_type_spec.1 { suffix := ".xyz" }).2.2.2.2 (by decide))⟩

/-! ## C6 : validate_file -/

/-- C6: `validate_file` checks, in order: existence, regular-file-ness,
readability, supported extension, non-zero size, short-circuiting at the
first failure with the corresponding message; non-existent paths yield
`(false, "File not found...")`, zero-byte readable supported files yield
`(false, "File is empty...")`, and when every check passes it returns
`(true, "File is valid")`. -/
theorem validate_file_spec (f : PyFile) :
    (f.fsExists = false → validate_file f = (false, "File not found: " ++ f.pathStr)) ∧
    (f.fsExists = true → f.isFile = false →
      validate_file f = (false, "Path is not a file: " ++ f.pathStr)) ∧
    (f.fsExists = true → f.isFile = true → f.readFirstByte = .permissionError →
      validate_file f = (false, "Permission denied: " ++ f.pathStr)) ∧
    (∀ e, f.fsExists = true → f.isFile = true → f.readFirstByte = .ioError e →
      validate_file f = (false, "Cannot read file: " ++ f.pathStr ++ " - " ++ e)) ∧
    (f.fsExists = true → f.isFile = true → f.readFirstByte = .ok →
      get_file_extension f ∉ ALL_SUPPORTED_EXTENSIONS →
      validate_file f = (false, "Unsupported file type: " ++ get_file_extension f ++
        ". Supported types: " ++ String.intercalate ", " sorted_supported_extensions)) ∧
    (f.fsExists = true → f.isFile = true → f.readFirstByte = .ok →
      get_file_extension f ∈ ALL_SUPPORTED_EXTENSIONS → f.sizeBytes = 0 →
      validate_file f = (false, "File is empty: " ++ f.pathStr)) ∧
    (f.fsExists = true → f.isFile = true → f.readFirstByte = .ok →
      get_file_extension f ∈ ALL_SUPPORTED_EXTENSIONS → f.sizeBytes ≠ 0 →
      validate_file f = (true, "File is valid")) := by
  refine ⟨?_, ?_, ?_, ?_, ?_, ?_, ?_⟩
  · intro h; simp [validate_file, h]
  · intro h1 h2; simp [validate_file, h1, h2]
  · intro h1 h2 h3; simp [validate_file, h1, h2, h3]
  · intro e h1 h2 h3; simp [validate_file, h1, h2, h3]
  · intro h1 h2 h3 h4; simp [validate_file, h1, h2, h3, h4]
  · intro h1 h2 h3 h4 h5; simp [validate_file, h1, h2, h3, h4, h5]
  · intro h1 h2 h3 h4 h5; simp [validate_file, h1, h2, h3, h4, h5]

/-- C6 witness: the theorem instantiated at a non-existent path, a
zero-byte supported file, and a valid file. -/
theorem validate_file_spec_witness :
    validate_file { pathStr := "a.mp4", suffix := ".mp4", fsExists := false } =
      (false, "File not found: a.mp4") ∧
    validate_file { pathStr := "a.mp4", suffix := ".mp4", sizeBytes := 0 } =
      (false, "File is empty: a.mp4") ∧
    validate_file { pathStr := "a.mp4", suffix := ".mp4", sizeBytes := 7 } =
      (true, "File is valid") :=
  ⟨(validate_file_spec _).1 (by decide),
   (validate_file_spec _).2.2.2.2.2.1 (by decide) (by decide) (by decide) (by decide) (by decide),
   (validate_file_spec _).2.2.2.2.2.2 (by decide) (by decide) (by decide) (by decide) (by decide)⟩

/-! ## C5 : get_video_duration and the Duration header line -/

/-- A pattern whose first character differs cannot be a prefix. -/
theorem not_starts_head {pat s : String} {p c : Char} {pr sr : List Char}
    (hp : pat.data = p :: pr) (hs : s.data = c :: sr) (hne : p ≠ c) :
    ¬ strStartsWith pat s := by
  intro hpre
  rw [strStartsWith, hp, hs] at hpre
  exact hne (List.cons_prefix_cons.mp hpre).1

/-- A pattern cannot be a prefix of the empty string. -/
theorem not_starts_nil {pat s : String} {p : Char} {pr : List Char}
    (hp : pat.data = p :: pr) (hs : s.data = []) : ¬ strStartsWith pat s := by
  intro hpre
  rw [strStartsWith, hp, hs] at hpre
  obtain ⟨t, ht⟩ := hpre
  simp at ht

/-- A pattern agreeing on the first two characters but differing on the
third cannot be a prefix. -/
theorem not_starts_third {pat s : String} {p₁ p₂ p₃ c₃ : Char} {pr sr : List Char}
    (hp : pat.data = p₁ :: p₂ :: p₃ :: pr) (hs : s.data = p₁ :: p₂ :: c₃ :: sr)
    (hne : p₃ ≠ c₃) : ¬ strStartsWith pat s := by
  intro hpre
  rw [strStartsWith, hp, hs] at hpre
  exact hne (List.cons_prefix_cons.mp
    (List.cons_prefix_cons.mp (List.cons_prefix_cons.mp hpre).2).2).1

/-- C5: every caught probe failure — subprocess failure, timeout,
non-zero exit, malformed JSON, missing format/duration field, or a
non-float duration value — makes `get_video_duration` return an absent
duration instead of raising; and when the metadata's duration is absent,
`generate_header` emits no line starting with `**Duration**`. -/
theorem get_video_duration_header_spec :
    (get_video_duration .subprocessError = .ok none) ∧
    (get_video_duration .timeoutExpired = .ok none) ∧
    (∀ (rc : Int) (out : ProbeJson), rc ≠ 0 →
      get_video_duration (.completed rc out) = .ok none) ∧
    (∀ rc : Int, get_video_duration (.completed rc .malformed) = .ok none) ∧
    (∀ rc : Int, get_video_duration (.completed rc .missingFormat) = .ok none) ∧
    (∀ rc : Int, get_video_duration (.completed rc .missingDuration) = .ok none) ∧
    (∀ (rc : Int) (raw : String),
      get_video_duration (.completed rc (.notAFloat raw)) = .ok none) ∧
    (∀ (content : ExtractionResult) (enable_frame_analysis : Bool) (now_str : String),
      content.metadata.duration_seconds = none →
      ∀ line ∈ generate_header_lines content enable_frame_analysis now_str,
        ¬ strStartsWith "**Duration**" line) := by
  refine ⟨rfl, rfl, ?_, ?_, ?_, ?_, ?_, ?_⟩
  · intro rc out h; simp [get_video_duration, h]
  · intro rc; rcases eq_or_ne rc 0 with h | h <;> simp [get_video_duration, h]
  · intro rc; rcases eq_or_ne rc 0 with h | h <;> simp [get_video_duration, h]
  · intro rc; rcases eq_or_ne rc 0 with h | h <;> simp [get_video_duration, h]
  · intro rc raw; rcases eq_or_ne rc 0 with h | h <;> simp [get_video_duration, h]
  · intro content enf now_str hd line hline
    have hpat : ("**Duration**" : String).data =
        '*' :: '*' :: 'D' :: "uration**".data := rfl
    unfold generate_header_lines at hline
    by_cases hp : optNatTruthy content.metadata.page_count <;>
      by_cases hs : optNatTruthy content.metadata.slide_count <;>
      by_cases hl : optStrTruthy content.metadata.language <;>
      by_cases hv : content.metadata.content_type = ContentType.video <;>
      simp only [hd, hp, hs, hl, hv, optRatTruthy, Bool.false_eq_true, ne_eq,
        not_false_eq_true, not_true_eq_false, if_true, if_false, ite_true, ite_false,
        List.cons_append, List.nil_append, List.singleton_append] at hline <;>
      fin_cases hline <;>
      first
        | exact not_starts_nil hpat rfl
        | exact not_starts_head hpat rfl (by decide)
        | exact not_starts_third hpat rfl (by decide)

/-- C5 witness: the theorem instantiated at a non-zero exit code and at
a concrete video extraction result with an absent duration. -/
theorem get_video_duration_header_spec_witness :
    get_video_duration (.completed 1 (.duration 5)) = .ok none ∧
    ¬ strStartsWith "**Duration**" "---" :=
  ⟨get_video_duration_header_spec.2.2.1 1 (.duration 5) (by decide),
   get_video_duration_header_spec.2.2.2.2.2.2.2
     { metadata := { file_path := "v.mp4", file_name := "v.mp4",
                     file_size_bytes := 5, content_type := .video },
       text := "t" }
     false "now" rfl "---" (by decide)⟩

/-! ## C4 : persona selection precedence and warnings -/

/-- The token loop of `parse_personas` keeps exactly the recognised
tokens (in order) and warns exactly once per unrecognised token. -/
theorem parsePersonasTokens_spec (ts : List String) :
    parsePersonasTokens ts =
      ((ts.map pyStrip).filterMap lookupPersona,
       ((ts.map pyStrip).filter (fun t => (lookupPersona t).isNone)).map
         (fun t => "Unknown persona: " ++ t)) := by
  induction ts with
  | nil => rfl
  | cons t ts ih =>
    simp only [parsePersonasTokens, ih, List.map_cons, List.filterMap_cons, List.filter_cons]
    cases h : lookupPersona (pyStrip t) <;> simp [h]

/-- C4: an explicit persona list takes priority over a user-type-derived
default, which takes priority over the `[CEO, CTO]` fallback used when
nothing is specified or when the selection comes out empty; every
unrecognised persona token produces exactly one warning and is not
fatal; and `--personas bogus,cfo` selects only CFO with exactly one
warning for "bogus". -/
theorem select_personas_spec :
    (∀ (s : String) (u : Option String), s ≠ "" → (parse_personas s).1 ≠ [] →
      select_personas false (some s) u = parse_personas s) ∧
    (∀ (u : String) (ut : UserType), u ≠ "" → parse_user_type u = some ut →
      select_personas false none (some u) = (USER_TYPE_PERSONA_DEFAULTS ut, [])) ∧
    (select_personas false none none = ([.ceo, .cto], [])) ∧
    (∀ s : String, s ≠ "" → (parse_personas s).1 = [] →
      select_personas false (some s) none = ([.ceo, .cto], (parse_personas s).2)) ∧
    (∀ s : String, (parse_personas s).2 =
      (((pySplitComma (pyLower s)).map pyStrip).filter
        (fun t => (lookupPersona t).isNone)).map (fun t => "Unknown persona: " ++ t)) ∧
    (select_personas false (some "bogus,cfo") none =
      ([.cfo], ["Unknown persona: bogus"])) := by
  refine ⟨?_, ?_, rfl, ?_, ?_, by decide⟩
  · intro s u hs hne
    have ht : optStrTruthy (some s) = true := by simp [optStrTruthy, hs]
    rcases hp : parse_personas s with ⟨ps, ws⟩
    rw [hp] at hne
    simp only at hne
    simp [select_personas, ht, hp, List.isEmpty_iff, hne]
  · intro u ut hu hut
    have ht : optStrTruthy (some u) = true := by simp [optStrTruthy, hu]
    cases ut <;>
      simp [select_personas, ht, hut, hu, optStrTruthy, USER_TYPE_PERSONA_DEFAULTS]
  · intro s hs hempty
    have ht : optStrTruthy (some s) = true := by simp [optStrTruthy, hs]
    rcases hp : parse_personas s with ⟨ps, ws⟩
    rw [hp] at hempty
    simp only at hempty
    subst hempty
    simp [select_personas, ht, hp]
  · intro s
    rw [parse_personas, parsePersonasTokens_spec]

/-- C4 witness: the theorem instantiated at concrete CLI inputs — an
explicit list overriding a user type, a user-type default, and the
empty-selection fallback. -/
theorem select_personas_spec_witness :
    select_personas false (some "cto") (some "sales") = ([.cto], []) ∧
    select_personas false none (some "sales") = ([.cto, .ciso], []) ∧
    select_personas false (some "bogus") none =
      ([.ceo, .cto], ["Unknown persona: bogus"]) :=
  ⟨by
    have h := select_personas_spec.1 "cto" (some "sales") (by decide) (by decide)
    rw [h]; decide,
   by
    have h := select_personas_spec.2.1 "sales" .sales_engineer (by decide) (by decide)
    rw [h]; decide,
   by
    have h := select_personas_spec.2.2.2.1 "bogus" (by decide) (by decide)
    rw [h]; decide⟩

/-! ## C2 : get_consolidated_concerns is a stable severity sort -/

/-- Inserting a concern of severity `s` commutes with filtering for `s`:
every element the insertion walks past has a strictly smaller severity
key, hence a different severity. -/
theorem filter_orderedInsert_sev_eq (s : Severity) (a : Concern) (l : List Concern)
    (ha : a.severity = s) :
    (List.orderedInsert concernLe a l).filter (fun c => decide (c.severity = s)) =
      a :: l.filter (fun c => decide (c.severity = s)) := by
  induction l with
  | nil => simp [List.orderedInsert, ha]
  | cons b l ih =>
    by_cases hab : concernLe a b
    · rw [List.orderedInsert, if_pos hab]
      simp [List.filter_cons, ha]
    · rw [List.orderedInsert, if_neg hab]
      have hbs : b.severity ≠ s := by
        intro hb
        exact hab (by rw [concernLe, ha, hb])
      simp [List.filter_cons, hbs, ih]

/-- Inserting a concern of a different severity leaves the filter for
`s` unchanged. -/
theorem filter_orderedInsert_sev_ne (s : Severity) (a : Concern) (l : List Concern)
    (ha : a.severity ≠ s) :
    (List.orderedInsert concernLe a l).filter (fun c => decide (c.severity = s)) =
      l.filter (fun c => decide (c.severity = s)) := by
  induction l with
  | nil => simp [List.orderedInsert, ha]
  | cons b l ih =>
    by_cases hab : concernLe a b
    · rw [List.orderedInsert, if_pos hab]
      simp [List.filter_cons, ha]
    · rw [List.orderedInsert, if_neg hab]
      simp [List.filter_cons, ih]

/-- Stability characterisation of the sort in `get_consolidated_concerns`:
for each severity, filtering the sorted output gives exactly the filtered
input, in input order. -/
theorem insertionSort_filter_sev (L : List Concern) (s : Severity) :
    (List.insertionSort concernLe L).filter (fun c => decide (c.severity = s)) =
      L.filter (fun c => decide (c.severity = s)) := by
  induction L with
  | nil => rfl
  | cons a L ih =>
    have hins : List.insertionSort concernLe (a :: L) =
        List.orderedInsert concernLe a (List.insertionSort concernLe L) := rfl
    by_cases ha : a.severity = s
    · rw [hins, filter_orderedInsert_sev_eq s a _ ha, ih]
      simp [List.filter_cons, ha]
    · rw [hins, filter_orderedInsert_sev_ne s a _ ha, ih]
      simp [List.filter_cons, ha]

/-- C2: `get_consolidated_concerns` returns the concatenation of all
concerns stably sorted by severity with HIGH before MEDIUM before LOW:
the output is sorted by severity key, and for every severity the output
filtered to it equals the concatenation filtered to it (same elements,
same relative order — stability); on the concrete input with severities
[LOW, HIGH, MEDIUM, HIGH] the output severities are
[HIGH, HIGH, MEDIUM, LOW] with the two HIGH concerns in their original
relative order. -/
theorem get_consolidated_concerns_spec :
    (∀ analyses : List AnalysisResult,
      List.Sorted concernLe (get_consolidated_concerns analyses) ∧
      ∀ s : Severity,
        (get_consolidated_concerns analyses).filter (fun c => decide (c.severity = s)) =
          (analyses.flatMap AnalysisResult.concerns).filter
            (fun c => decide (c.severity = s))) ∧
    ((get_consolidated_concerns [exampleSeverityAnalysis]).map Concern.severity =
      [.high, .high, .medium, .low] ∧
     (get_consolidated_concerns [exampleSeverityAnalysis]).map Concern.title =
      ["c2", "c4", "c3", "c1"]) := by
  refine ⟨fun analyses => ⟨List.sorted_insertionSort concernLe _, fun s => ?_⟩, by decide, by decide⟩
  exact insertionSort_filter_sev _ s

/-! ## C7 : get_consolidated_questions deduplication -/

/-- The consolidation pass selects a subsequence of the concatenated
question list. -/
theorem consolidateQuestionsAux_sublist (l : List Question) (seen : List String) :
    (consolidateQuestionsAux l seen).Sublist l := by
  induction l generalizing seen with
  | nil => simp [consolidateQuestionsAux]
  | cons q rest ih =>
    rw [consolidateQuestionsAux]
    by_cases h : q.text ∈ seen
    · rw [if_pos h]
      exact (ih seen).cons q
    · rw [if_neg h]
      exact (ih (q.text :: seen)).cons₂ q

/-- Texts of the consolidation pass: the string-level pass over the
texts. -/
theorem consolidateQuestionsAux_map_text (l : List Question) (seen : List String) :
    (consolidateQuestionsAux l seen).map Question.text =
      dedupStrings (l.map Question.text) seen := by
  induction l generalizing seen with
  | nil => rfl
  | cons q rest ih =>
    rw [consolidateQuestionsAux, List.map_cons, dedupStrings]
    by_cases h : q.text ∈ seen
    · rw [if_pos h, if_pos h, ih]
    · rw [if_neg h, if_neg h, List.map_cons, ih]

/-- The string-level pass equals the spec-side first-occurrence
subsequence of the not-yet-seen texts. -/
theorem dedupStrings_eq_firstOccurrenceTexts (l : List String) (seen : List String) :
    dedupStrings l seen =
      firstOccurrenceTexts (l.filter (fun x => decide (x ∉ seen))) := by
  induction l generalizing seen with
  | nil => simp [dedupStrings, firstOccurrenceTexts]
  | cons x xs ih =>
    rw [dedupStrings, List.filter_cons]
    by_cases h : x ∈ seen
    · rw [if_pos h]
      simp only [h, not_true_eq_false, decide_False, Bool.false_eq_true, if_false]
      exact ih seen
    · rw [if_neg h]
      simp only [h, not_false_eq_true, decide_True, if_true]
      rw [show firstOccurrenceTexts (x :: xs.filter (fun y => decide (y ∉ seen))) =
          x :: firstOccurrenceTexts ((xs.filter (fun y => decide (y ∉ seen))).filter
            (fun y => y != x)) from by simp [firstOccurrenceTexts]]
      rw [ih (x :: seen)]
      congr 1
      rw [List.filter_filter]
      congr 1
      apply List.filter_congr
      intro y _
      simp only [List.mem_cons, not_or, Bool.decide_and, bne]
      cases hyx : y == x
      · simp [(by simpa using hyx : ¬ y = x)]
      · simp [(by simpa using hyx : y = x)]

/-- Every element of the first-occurrence subsequence comes from the
input. -/
theorem mem_of_mem_firstOccurrenceTexts (l : List String) :
    ∀ x ∈ firstOccurrenceTexts l, x ∈ l := by
  induction l using firstOccurrenceTexts.induct with
  | case1 => simp [firstOccurrenceTexts]
  | case2 y xs ih =>
    intro x hx
    simp only [firstOccurrenceTexts] at hx
    rcases List.mem_cons.mp hx with rfl | hx
    · exact List.mem_cons_self _ _
    · exact List.mem_cons_of_mem _ (List.mem_filter.mp (ih x hx)).1

/-- Every input element's text appears in the first-occurrence
subsequence. -/
theorem mem_firstOccurrenceTexts_of_mem (l : List String) :
    ∀ x ∈ l, x ∈ firstOccurrenceTexts l := by
  induction l using firstOccurrenceTexts.induct with
  | case1 => simp
  | case2 y xs ih =>
    intro x hx
    simp only [firstOccurrenceTexts]
    rcases List.mem_cons.mp hx with rfl | hx
    · exact List.mem_cons_self _ _
    · by_cases hxy : x = y
      · subst hxy; exact List.mem_cons_self _ _
      · refine List.mem_cons_of_mem _ (ih x ?_)
        rw [List.mem_filter]
        exact ⟨hx, by simpa [bne] using hxy⟩

/-- The first-occurrence subsequence has no duplicates. -/
theorem firstOccurrenceTexts_nodup (l : List String) :
    (firstOccurrenceTexts l).Nodup := by
  induction l using firstOccurrenceTexts.induct with
  | case1 => simp [firstOccurrenceTexts]
  | case2 y xs ih =>
    simp only [firstOccurrenceTexts]
    refine List.nodup_cons.mpr ⟨fun hy => ?_, ih⟩
    have := (List.mem_filter.mp (mem_of_mem_firstOccurrenceTexts _ _ hy)).2
    simp [bne] at this

/-- C7: `get_consolidated_questions` never contains two entries with
identical text, selects a subsequence of the concatenated question
lists, keeps the text of every question, and its text sequence is
exactly the first-occurrence subsequence of the concatenated texts
(first-seen kept, original order preserved). -/
theorem get_consolidated_questions_spec (analyses : List AnalysisResult) :
    ((get_consolidated_questions analyses).map Question.text).Nodup ∧
    (get_consolidated_questions analyses).Sublist
      (analyses.flatMap AnalysisResult.questions) ∧
    (∀ q ∈ analyses.flatMap AnalysisResult.questions,
      q.text ∈ (get_consolidated_questions analyses).map Question.text) ∧
    (get_consolidated_questions analyses).map Question.text =
      firstOccurrenceTexts ((analyses.flatMap AnalysisResult.questions).map Question.text) := by
  have hmap : (get_consolidated_questions analyses).map Question.text =
      firstOccurrenceTexts ((analyses.flatMap AnalysisResult.questions).map Question.text) := by
    rw [get_consolidated_questions, consolidateQuestionsAux_map_text,
      dedupStrings_eq_firstOccurrenceTexts]
    congr 1
    apply List.filter_eq_self.mpr
    intro a _
    simp
  refine ⟨?_, consolidateQuestionsAux_sublist _ _, ?_, hmap⟩
  · rw [hmap]; exact firstOccurrenceTexts_nodup _
  · intro q hq
    rw [hmap]
    exact mem_firstOccurrenceTexts_of_mem _ _ (List.mem_map_of_mem Question.text hq)

/-- C7 witness: the theorem instantiated at two analyses sharing the
question text "q1". -/
theorem get_consolidated_questions_spec_witness :
    ("q1" : String) ∈ (get_consolidated_questions
      [{ persona := examplePersona, questions := [exampleQuestion "q1"] },
       { persona := examplePersona,
         questions := [exampleQuestion "q2", exampleQuestion "q1"] }]).map Question.text :=
  (get_consolidated_questions_spec
    [{ persona := examplePersona, questions := [exampleQuestion "q1"] },
     { persona := examplePersona,
       questions := [exampleQuestion "q2", exampleQuestion "q1"] }]).2.2.1
    (exampleQuestion "q1") (by decide)

/-! ## C10 : clean_text idempotence -/

/-- Adjacent-character invariant of collapsed text: no whitespace
character is followed by another whitespace character. -/
def NoAdjSpace (l : List Char) : Prop :=
  List.Chain' (fun a b => isPySpace a = true → isPySpace b = false) l

/-- All whitespace in `l` is the plain space character. -/
def SpacesBlank (l : List Char) : Prop :=
  ∀ c ∈ l, isPySpace c = true → c = ' '

/-- The head of `l` (if any) is not whitespace. -/
def HeadNotSpace (l : List Char) : Prop :=
  ∀ c, l.head? = some c → isPySpace c = false

/-- Every character emitted by `collapseAux` is a character of the input
or the replacement space. -/
theorem collapseAux_blank (b : Bool) (l : List Char) : SpacesBlank (collapseAux b l) := by
  induction l generalizing b with
  | nil => intro c hc; simp [collapseAux] at hc
  | cons c rest ih =>
    intro d hd hsp
    rw [collapseAux] at hd
    by_cases hc : isPySpace c = true
    · rw [if_pos hc] at hd
      cases b with
      | true => exact ih true d hd hsp
      | false =>
        simp only [if_false, Bool.false_eq_true, List.mem_cons] at hd
        rcases hd with rfl | hd
        · rfl
        · exact ih true d hd hsp
    · rw [if_neg hc] at hd
      rcases List.mem_cons.mp hd with rfl | hd
      · exact absurd hsp hc
      · exact ih false d hd hsp

/-- Output of `collapseAux` never has two adjacent whitespace characters,
and with the in-run flag set it starts with a non-space (if at all). -/
theorem collapseAux_chain (l : List Char) :
    NoAdjSpace (collapseAux false l) ∧ NoAdjSpace (collapseAux true l) ∧
      HeadNotSpace (collapseAux true l) := by
  induction l with
  | nil => exact ⟨List.chain'_nil, List.chain'_nil, fun c hc => by simp [collapseAux] at hc⟩
  | cons c rest ih =>
    obtain ⟨ihF, ihT, ihH⟩ := ih
    by_cases hc : isPySpace c = true
    · refine ⟨?_, ?_, ?_⟩
      · rw [collapseAux, if_pos hc, if_neg (by simp)]
        exact List.chain'_cons'.mpr ⟨fun y hy => fun _ => ihH y hy, ihT⟩
      · rw [collapseAux, if_pos hc, if_pos rfl]
        exact ihT
      · rw [collapseAux, if_pos hc, if_pos rfl]
        exact ihH
    · have hstep : ∀ b, collapseAux b (c :: rest) = c :: collapseAux false rest := by
        intro b; rw [collapseAux, if_neg hc]
      have hchain : NoAdjSpace (c :: collapseAux false rest) :=
        List.chain'_cons'.mpr ⟨fun y _ => fun hcs => absurd hcs hc, ihF⟩
      refine ⟨by rw [hstep]; exact hchain, by rw [hstep]; exact hchain, ?_⟩
      intro d hd
      rw [hstep, List.head?_cons, Option.some_inj] at hd
      subst hd
      exact Bool.eq_false_iff.mpr hc

/-- Text that is already collapsed (all spaces blank, none adjacent) is
a fixed point of `collapseAux`. -/
theorem collapseAux_fixed (l : List Char) (hb : SpacesBlank l) (hch : NoAdjSpace l) :
    collapseAux false l = l ∧ (HeadNotSpace l → collapseAux true l = l) := by
  induction l with
  | nil => exact ⟨rfl, fun _ => rfl⟩
  | cons c rest ih =>
    have hbr : SpacesBlank rest := fun d hd => hb d (List.mem_cons_of_mem _ hd)
    have hchr : NoAdjSpace rest := hch.tail
    obtain ⟨ihF, ihT⟩ := ih hbr hchr
    by_cases hc : isPySpace c = true
    · have hc' : c = ' ' := hb c (List.mem_cons_self _ _) hc
      have hrest : HeadNotSpace rest := by
        intro d hd
        exact (List.chain'_cons'.mp hch).1 d hd hc
      constructor
      · rw [collapseAux, if_pos hc, if_neg (by simp), ihT hrest, hc']
      · intro hhead
        exact absurd hc (by simpa using hhead c rfl)
    · have hstep : ∀ b, collapseAux b (c :: rest) = c :: collapseAux false rest := by
        intro b; rw [collapseAux, if_neg hc]
      exact ⟨by rw [hstep, ihF], fun _ => by rw [hstep, ihF]⟩

/-- `dropWhile` preserves the adjacency invariant. -/
theorem noAdjSpace_dropWhile (p : Char → Bool) (l : List Char) (h : NoAdjSpace l) :
    NoAdjSpace (l.dropWhile p) := by
  induction l with
  | nil => exact h
  | cons c rest ih =>
    rw [List.dropWhile_cons]
    by_cases hc : p c = true
    · rw [if_pos hc]
      exact ih h.tail
    · rw [if_neg hc]
      exact h

/-- The adjacency invariant survives reversal (it is symmetric in the
pair). -/
theorem noAdjSpace_reverse (l : List Char) (h : NoAdjSpace l) : NoAdjSpace l.reverse := by
  rw [NoAdjSpace, List.chain'_reverse]
  refine h.imp ?_
  intro a b hab
  intro hb
  cases ha : isPySpace a
  · rfl
  · exact absurd (hab ha) (by simp [hb])

/-- Both strip halves preserve the adjacency invariant. -/
theorem noAdjSpace_stripChars (l : List Char) (h : NoAdjSpace l) :
    NoAdjSpace (stripChars l) := by
  have h1 : NoAdjSpace (lstripChars l) := noAdjSpace_dropWhile _ _ h
  have h2 : NoAdjSpace ((lstripChars l).reverse.dropWhile isPySpace) :=
    noAdjSpace_dropWhile _ _ (noAdjSpace_reverse _ h1)
  exact noAdjSpace_reverse _ h2

/-- Stripping keeps only characters of the input. -/
theorem stripChars_subset (l : List Char) : ∀ c ∈ stripChars l, c ∈ l := by
  intro c hc
  have h1 : c ∈ (lstripChars l).reverse.dropWhile isPySpace := by
    have := List.mem_reverse.mp (by simpa [stripChars, rstripChars] using hc)
    exact this
  have h2 : c ∈ (lstripChars l).reverse := (List.dropWhile_suffix _).subset h1
  have h3 : c ∈ lstripChars l := List.mem_reverse.mp h2
  exact (List.dropWhile_suffix _).subset h3

/-- After a left strip the head is not whitespace. -/
theorem headNotSpace_lstrip (l : List Char) : HeadNotSpace (l.dropWhile isPySpace) := by
  intro c hc
  have := List.head?_dropWhile_not isPySpace l
  rw [hc] at this
  exact this

/-- The right strip is a prefix of its input, so it keeps the head. -/
theorem headNotSpace_rstrip (l : List Char) (h : HeadNotSpace l) :
    HeadNotSpace (rstripChars l) := by
  intro c hc
  have hpre : (rstripChars l).IsPrefix l := by
    have := (List.dropWhile_suffix (l := l.reverse) isPySpace).reverse
    simpa [rstripChars] using this
  obtain ⟨t, ht⟩ := hpre
  apply h c
  cases hr : rstripChars l with
  | nil => rw [hr] at hc; simp at hc
  | cons d rest =>
    rw [hr] at hc ht
    simp only [List.head?_cons, Option.some_inj] at hc
    subst hc
    rw [← ht]
    rfl

/-- The reverse of a right-stripped list starts with a non-space. -/
theorem headNotSpace_rstrip_reverse (l : List Char) :
    HeadNotSpace (rstripChars l).reverse := by
  intro c hc
  have := List.head?_dropWhile_not isPySpace l.reverse
  rw [show (rstripChars l).reverse = l.reverse.dropWhile isPySpace by
    simp [rstripChars]] at hc
  rw [hc] at this
  exact this

/-- A list whose head and last element are non-space is fixed by
stripping. -/
theorem stripChars_fixed (l : List Char) (h1 : HeadNotSpace l)
    (h2 : HeadNotSpace l.reverse) : stripChars l = l := by
  have hl : lstripChars l = l := by
    cases l with
    | nil => rfl
    | cons c rest =>
      rw [lstripChars, List.dropWhile_cons, if_neg (by simp [h1 c rfl])]
  have hr : rstripChars l = l := by
    have : l.reverse.dropWhile isPySpace = l.reverse := by
      cases hrev : l.reverse with
      | nil => rfl
      | cons c rest =>
        rw [List.dropWhile_cons, if_neg (by simp [h2 c (by rw [hrev]; rfl)])]
    rw [rstripChars, this, List.reverse_reverse]
  rw [stripChars, hl, hr]

/-- C10: `clean_text` (collapse whitespace runs to single spaces, then
strip) is idempotent. -/
theorem clean_text_idempotent (s : String) : clean_text (clean_text s) = clean_text s := by
  rw [clean_text, clean_text]
  have hdata : (String.mk (stripChars (collapseWs s.data))).data =
      stripChars (collapseWs s.data) := rfl
  rw [hdata]
  set r := stripChars (collapseWs s.data) with hr
  have hblank : SpacesBlank r := by
    intro c hc
    exact collapseAux_blank false s.data c (stripChars_subset _ c hc)
  have hchain : NoAdjSpace r := noAdjSpace_stripChars _ (collapseAux_chain s.data).1
  have hhead : HeadNotSpace r := by
    rw [hr, stripChars]
    exact headNotSpace_rstrip _ (headNotSpace_lstrip _)
  have hlast : HeadNotSpace r.reverse := by
    rw [hr, stripChars]
    exact headNotSpace_rstrip_reverse _
  have hcoll : collapseWs r = r := (collapseAux_fixed r hblank hchain).1
  rw [collapseWs] at hcoll
  rw [show collapseWs r = collapseAux false r from rfl] at *
  rw [hcoll]
  rw [stripChars_fixed r hhead hlast]

/-! ## C3 : extract_pptx slide records and markers -/

/-- Unfolding of `joinLines` on two or more lines, at the character
level. -/
theorem joinLines_data_cons (p q : String) (rest : List String) :
    (joinLines (p :: q :: rest)).data = p.data ++ '\n' :: (joinLines (q :: rest)).data := by
  rw [joinLines, String.data_append, String.data_append]
  simp

/-- Every line is contained in the joined text. -/
theorem mem_joinLines_infix (a : String) (parts : List String) (h : a ∈ parts) :
    a.data <:+: (joinLines parts).data := by
  induction parts with
  | nil => simp at h
  | cons p rest ih =>
    rcases List.mem_cons.mp h with rfl | h
    · cases rest with
      | nil => exact List.infix_refl _
      | cons q rest' =>
        exact ⟨[], '\n' :: (joinLines (q :: rest')).data, by simp [joinLines_data_cons]⟩
    · cases rest with
      | nil => simp at h
      | cons q rest' =>
        have hsuf : (joinLines (q :: rest')).data <:+ (joinLines (p :: q :: rest')).data :=
          ⟨p.data ++ ['\n'], by simp [joinLines_data_cons]⟩
        exact (ih h).trans hsuf.isInfix

/-- The `--- Slide k:` marker is a prefix of slide `k`'s header line. -/
theorem slideMarker_prefix_header (k : Nat) (t : Option String) :
    (slideMarker k).data <+: (slideHeader k t).data := by
  refine ⟨' ' :: ((pyOrStr t "Untitled").data ++ " ---".data), ?_⟩
  rw [slideMarker, slideHeader]
  simp only [String.data_append, List.append_assoc]
  simp

/-- One unfolding step of the pptx loop. -/
theorem pptxLoop_cons (n : Nat) (s : PptxSlide) (rest : List PptxSlide) :
    pptxLoop n (s :: rest) =
      (slideContentOf n s :: (pptxLoop (n + 1) rest).1,
       slidePartsOf n s ++ (pptxLoop (n + 1) rest).2) := rfl

/-- The slide records carry the numbers `n, n+1, ...` in order. -/
theorem pptxLoop_map_slide_number (slides : List PptxSlide) (n : Nat) :
    ((pptxLoop n slides).1.map SlideContent.slide_number) = List.range' n slides.length := by
  induction slides generalizing n with
  | nil => rfl
  | cons s rest ih =>
    rw [pptxLoop_cons, List.length_cons, List.range'_succ]
    simp only [List.map_cons]
    rw [ih (n + 1)]
    rfl

/-- For every slide index in range, its header line is among the text
parts. -/
theorem pptxLoop_header_mem (slides : List PptxSlide) (n k : Nat)
    (h1 : n ≤ k) (h2 : k < n + slides.length) :
    ∃ t, slideHeader k t ∈ (pptxLoop n slides).2 := by
  induction slides generalizing n with
  | nil => exact absurd h2 (by simp; omega)
  | cons s rest ih =>
    by_cases hk : k = n
    · subst hk
      refine ⟨s.title, ?_⟩
      rw [pptxLoop_cons]
      show slideHeader k s.title ∈ slidePartsOf k s ++ (pptxLoop (k + 1) rest).2
      apply List.mem_append_left
      rw [slidePartsOf]
      exact List.mem_append_left _ (List.mem_append_left _ (List.mem_cons_self _ _))
    · have h1' : n + 1 ≤ k := by omega
      have h2' : k < (n + 1) + rest.length := by
        rw [List.length_cons] at h2; omega
      obtain ⟨t, ht⟩ := ih (n + 1) h1' h2'
      refine ⟨t, ?_⟩
      rw [pptxLoop_cons]
      show slideHeader k t ∈ slidePartsOf n s ++ (pptxLoop (n + 1) rest).2
      exact List.mem_append_right _ ht

/-- C3 counterexample: a one-slide PPTX whose slide body itself contains
`--- Slide 1: x ---` produces a flattened text with **two** occurrences
of the `--- Slide 1:` marker, not exactly one per slide. -/
theorem extract_pptx_marker_count_counterexample :
    collidingDeck.pptxSlides.length = 1 ∧
    countSub (slideMarker 1).data (extract_pptx collidingDeck none).text.data = 2 ∧
    (2 : Nat) ≠ 1 := by
  refine ⟨rfl, ?_, by decide⟩
  decide

/-- C3 (amended): `extract_pptx` on a deck with `N` slides yields exactly
`N` `SlideContent` records with `slide_number` `1..N` in source order and
a `slide_count` of `N`; the flattened text contains the `--- Slide k:`
marker for every `k` in `1..N` — at least once each; the count can
exceed one only when slide content itself contains marker-shaped text,
as the counterexample shows. -/
theorem extract_pptx_slides_markers (f : PyFile) (od : Option Unit) :
    ((extract_pptx f od).slides.getD []).map SlideContent.slide_number =
      List.range' 1 f.pptxSlides.length ∧
    (extract_pptx f od).metadata.slide_count = some f.pptxSlides.length ∧
    (∀ k, 1 ≤ k → k ≤ f.pptxSlides.length →
      strContains (slideMarker k) (extract_pptx f od).text) := by
  have hmap : ((pptxLoop 1 f.pptxSlides).1.map SlideContent.slide_number) =
      List.range' 1 f.pptxSlides.length := pptxLoop_map_slide_number _ 1
  have hlen : (pptxLoop 1 f.pptxSlides).1.length = f.pptxSlides.length := by
    have := congrArg List.length hmap
    simpa using this
  refine ⟨hmap, by simp [extract_pptx, hlen], ?_⟩
  intro k hk1 hk2
  obtain ⟨t, ht⟩ := pptxLoop_header_mem f.pptxSlides 1 k hk1 (by omega)
  have hinfix : (slideHeader k t).data <:+: (extract_pptx f od).text.data :=
    mem_joinLines_infix _ _ ht
  exact ((slideMarker_prefix_header k t).isInfix).trans hinfix

/-- C3 witness: the amended theorem instantiated at the three-slide
deck, with `k = 2`. -/
theorem extract_pptx_slides_markers_witness :
    ((extract_pptx exampleDeck none).slides.getD []).map SlideContent.slide_number =
      List.range' 1 exampleDeck.pptxSlides.length ∧
    strContains (slideMarker 2) (extract_pptx exampleDeck none).text :=
  ⟨(extract_pptx_slides_markers exampleDeck none).1,
   (extract_pptx_slides_markers exampleDeck none).2.2 2 (by decide) (by decide)⟩

/-! ## C1 : metadata content_type vs. dispatch branch -/

/-- C1 counterexample: a PDF dispatched through the presentation branch
(`extract_content` with content type `presentation`, which calls
`extract_presentation` and thence `extract_pdf`) yields metadata whose
`content_type` is `document`, not `presentation`. -/
theorem extract_content_pdf_presentation_counterexample :
    (extract_content pdfAsPresentationFile .presentation none false "base" 15).map
      (fun r => r.metadata.content_type) = .ok ContentType.document ∧
    ContentType.document ≠ ContentType.presentation := by
  refine ⟨rfl, by decide⟩

/-- C1 (amended): the metadata's `content_type` matches the dispatch
branch for the document branch, for the presentation branch on PPTX
input, and for the video/audio branches whenever the file's detected
type matches the branch (those branches re-detect from the extension);
the one exception is PDF through the presentation branch, which reuses
the PDF document path verbatim and yields `document` metadata. -/
theorem extract_content_content_type_spec (f : PyFile) (od : Option Unit)
    (ef : Bool) (wm : String) (fi : Nat) :
    (∀ r, extract_content f .document od ef wm fi = .ok r →
      r.metadata.content_type = .document) ∧
    (get_file_extension f = ".pptx" →
      ∀ r, extract_content f .presentation od ef wm fi = .ok r →
        r.metadata.content_type = .presentation) ∧
    (get_file_extension f = ".pdf" →
      ∀ r, extract_content f .presentation od ef wm fi = .ok r →
        r.metadata.content_type = .document) ∧
    (detect_content_type f = some .video →
      ∀ r, extract_content f .video od ef wm fi = .ok r →
        r.metadata.content_type = .video) ∧
    (detect_content_type f = some .audio →
      ∀ r, extract_content f .audio od ef wm fi = .ok r →
        r.metadata.content_type = .audio) := by
  have htrans : ∀ res, extract_transcript f = .ok res →
      res.metadata.content_type = (detect_content_type f).getD .audio := by
    intro res h
    rw [extract_transcript] at h
    cases hp : get_video_duration f.probe with
    | error e => rw [hp] at h; cases h
    | ok d =>
      rw [hp] at h
      simp only [Except.ok.injEq] at h
      rw [← h]
  refine ⟨?_, ?_, ?_, ?_, ?_⟩
  · intro r h
    rw [extract_content, extract_document] at h
    split_ifs at h <;> cases h <;> rfl
  · intro hext r h
    rw [extract_content, extract_presentation, hext] at h
    rw [if_pos rfl] at h
    cases h
    rfl
  · intro hext r h
    rw [extract_content, extract_presentation, hext] at h
    rw [if_neg (by decide), if_pos rfl] at h
    cases h
    rfl
  · intro hdet r h
    rw [extract_content] at h
    cases ht : extract_transcript f with
    | error e => rw [ht] at h; cases h
    | ok res =>
      rw [ht] at h
      simp only at h
      have hct : res.metadata.content_type = .video := by
        rw [htrans res ht, hdet]; rfl
      by_cases hcond : ef = true ∧ od.isSome = true
      · rw [if_pos hcond] at h
        cases hfr : f.frameExtraction with
        | error e => rw [hfr] at h; cases h
        | ok ps =>
          rw [hfr] at h
          simp only [Except.ok.injEq] at h
          rw [← h]
          exact hct
      · rw [if_neg hcond] at h
        simp only [Except.ok.injEq] at h
        rw [← h]
        exact hct
  · intro hdet r h
    rw [extract_content] at h
    have hct := htrans r h
    rw [hct, hdet]
    rfl

/-- C1 witness: the amended theorem instantiated at a TXT file through
the document branch and the PPTX deck through the presentation branch. -/
theorem extract_content_content_type_spec_witness :
    (extract_text_file exampleTxtFile).metadata.content_type = .document ∧
    (extract_pptx exampleDeck none).metadata.content_type = .presentation :=
  ⟨(extract_content_content_type_spec exampleTxtFile none false "base" 15).1
    (extract_text_file exampleTxtFile) rfl,
   (extract_content_content_type_spec exampleDeck none false "base" 15).2.1
    (by decide) (extract_pptx exampleDeck none) rfl⟩

end ExecReview
